import Mathlib

/-!
Verification of the intcode-style virtual machine from this repository
(the Day 2 and Day 5 notebooks of the 2019 set).

The Python source is embedded shallowly:

* `Memory` is a list of integers; `pyGet` / `pySet` follow Python list
  indexing, including the resolution of negative indices relative to the
  end of the list and the `IndexError` (here `none`) outside that range.
* Integer `//` and `%` on a positive divisor agree with Euclidean
  division, so `Int.ediv` / `Int.emod` embed them exactly.
* Exceptions are embedded with `Except Err`; the `Halt` signal is the
  `Err.halted` alternative, caught once by the run loop, while
  `KeyError` (unknown opcode), `IndexError`, `ValueError` (bad parameter
  mode digit) and `TypeError` propagate to the caller.
* The pluggable I/O callables are embedded as functions threading a
  `Chan` (an integer input stream and output sink) through the run.
-/

namespace Intcode

abbrev Memory := List Int

/-- Python list index resolution: a negative index counts from the end of
the list; an index outside `[-len, len)` is an `IndexError` (`none`). -/
def pyIndex (len : Nat) (i : Int) : Option Nat :=
  let j := if i < 0 then i + (len : Int) else i
  if 0 ≤ j ∧ j < (len : Int) then some j.toNat else none

/-- Python `memory[i]` read. -/
def pyGet (mem : Memory) (i : Int) : Option Int :=
  match pyIndex mem.length i with
  | some j => mem.get? j
  | none => none

/-- Python `memory[i] = v` write. -/
def pySet (mem : Memory) (i : Int) (v : Int) : Option Memory :=
  match pyIndex mem.length i with
  | some j => some (mem.set j v)
  | none => none

/-- The exceptions the interpreter can raise.  `halted` embeds the `Halt`
signal class; the others embed the builtin Python exceptions. -/
inductive Err where
  | halted
  | keyError
  | indexError
  | valueError
  | typeError
deriving DecidableEq, Repr

/-- Values produced by an instruction's operation callable: an `int`, a
`bool` (from comparisons and `bool`/`not_`), or `None` (from `print` /
`list.append`). -/
inductive FRes where
  | intR (v : Int)
  | boolR (b : Bool)
  | noneR
deriving DecidableEq, Repr

/-- Python `int(result)`: identity on ints, 1/0 on bools, `TypeError`
(`none`) on `None`. -/
def FRes.toInt : FRes → Option Int
  | .intR v => some v
  | .boolR b => some (if b then 1 else 0)
  | .noneR => none

/-- Python truthiness of a result, used by `jump_to if result else offset`. -/
def FRes.truthy : FRes → Bool
  | .intR v => decide (v ≠ 0)
  | .boolR b => b
  | .noneR => false

/-- The external integer source and sink the caller supplies. -/
structure Chan where
  inputs : List Int
  outputs : List Int
deriving DecidableEq, Repr

/-- `enum ParameterMode`: modes are an integer digit mapping to a
parameter getter. -/
inductive ParameterMode where
  | position
  | immediate
deriving DecidableEq, Repr

/-- `ParameterMode(value)`: digit 0 is position, digit 1 is immediate,
any other digit raises `ValueError` (`none`). -/
def ParameterMode.ofDigit (d : Int) : Option ParameterMode :=
  if d = 0 then some .position
  else if d = 1 then some .immediate
  else none

/-- The `_getters` table: position mode is `operator.getitem`
(a memory read at the address given by the word), immediate mode returns
the word itself. -/
def ParameterMode.get : ParameterMode → Memory → Int → Option Int
  | .position, mem, a => pyGet mem a
  | .immediate, _, a => some a

/-- `Instruction` dataclass of the Day 5 notebook.  `f` embeds the
operation callable (it may consume and produce channel values, raise
`Halt`, or raise `TypeError` on an arity mismatch); `isJump` marks the
`JumpInstruction` subclass, whose `__call__` override is embedded in
`Instruction.call`. -/
structure Instruction where
  f : List Int → Chan → Except Err (FRes × Chan)
  arg_count : Nat := 0
  output : Bool := false
  isJump : Bool := false

/-- `Instruction.__call__`: produce a new CPU position and a result.  The
new position is `pos + 1 + arg_count + int(output)`. -/
def Instruction.callBase (instr : Instruction) (pos : Int) (args : List Int)
    (ch : Chan) : Except Err (Int × FRes × Chan) :=
  match instr.f args ch with
  | .error e => .error e
  | .ok (result, ch') =>
      .ok (pos + 1 + ((instr.arg_count : Int) + (if instr.output then 1 else 0)),
           result, ch')

/-- Instruction dispatch: `JumpInstruction.__call__` splits off the last
argument as the jump target, runs the base call on the remaining
arguments, and returns the target when the result is truthy, the
sequential offset otherwise.  A plain `Instruction` is just the base
call.  (`*jmpargs, jump_to = args` raises `ValueError` on an empty
argument tuple.) -/
def Instruction.call (instr : Instruction) (pos : Int) (args : List Int)
    (ch : Chan) : Except Err (Int × FRes × Chan) :=
  if instr.isJump then
    match args.getLast? with
    | none => .error .valueError
    | some jump_to =>
        match instr.callBase pos args.dropLast ch with
        | .error e => .error e
        | .ok (offset, result, ch') =>
            .ok (if result.truthy then jump_to else offset, result, ch')
  else
    instr.callBase pos args ch

/-- The generator inside `Instruction.bind`: mode `i` is
`ParameterMode(modes // 10 ** i % 10)`, collected for
`i in range(count)`; an unknown digit raises `ValueError`. -/
def modesFrom (mo : Int) (i : Nat) : Nat → Except Err (List ParameterMode)
  | 0 => .ok []
  | n + 1 =>
      match ParameterMode.ofDigit ((mo.ediv (10 ^ i)).emod 10) with
      | none => .error .valueError
      | some m =>
          match modesFrom mo (i + 1) n with
          | .error e => .error e
          | .ok ms => .ok (m :: ms)

/-- `BoundInstruction` dataclass: the instruction, its decoded parameter
modes, and the offset (`cpu.pos + 1`) where the argument words start. -/
structure BoundInstruction where
  instruction : Instruction
  modes : List ParameterMode
  offset : Int

/-- `Instruction.bind`: decode the addressing-mode digits above the two
opcode digits (`modes = opcode // 100`) and build the bound instruction
with argument offset `cpu.pos + 1`. -/
def Instruction.bind (instr : Instruction) (opcode : Int) (pos : Int) :
    Except Err BoundInstruction :=
  match modesFrom (opcode.ediv 100) 0 instr.arg_count with
  | .error e => .error e
  | .ok ms => .ok ⟨instr, ms, pos + 1⟩

/-- The argument generator of `BoundInstruction.__call__`:
`param.get(mem, mem[i]) for i, param in enumerate(modes, start=offset)`.
Each raw word read and each position-mode dereference may raise
`IndexError`. -/
def resolveArgs (mem : Memory) : Int → List ParameterMode → Except Err (List Int)
  | _, [] => .ok []
  | i, m :: rest =>
      match pyGet mem i with
      | none => .error .indexError
      | some w =>
          match m.get mem w with
          | none => .error .indexError
          | some v =>
              match resolveArgs mem (i + 1) rest with
              | .error e => .error e
              | .ok vs => .ok (v :: vs)

/-- The CPU state visible to a bound instruction: the memory, the
position counter, and the external channel. -/
structure CPUState where
  memory : Memory
  pos : Int
  chan : Chan
deriving DecidableEq, Repr

/-- `BoundInstruction.__call__`: resolve the arguments through their
parameter modes, invoke the instruction, and — when the instruction has
an output — write `int(result)` to the address taken literally from the
word at `offset + arg_count`.  Returns the state with the new position. -/
def BoundInstruction.call (b : BoundInstruction) (st : CPUState) :
    Except Err CPUState :=
  match resolveArgs st.memory b.offset b.modes with
  | .error e => .error e
  | .ok args =>
      match b.instruction.call st.pos args st.chan with
      | .error e => .error e
      | .ok (newpos, result, ch') =>
          if b.instruction.output then
            match pyGet st.memory (b.offset + (b.instruction.arg_count : Int)) with
            | none => .error .indexError
            | some target =>
                match result.toInt with
                | none => .error .typeError
                | some v =>
                    match pySet st.memory target v with
                    | none => .error .indexError
                    | some mem' => .ok ⟨mem', newpos, ch'⟩
          else
            .ok ⟨st.memory, newpos, ch'⟩

/-- The opcode table (`Mapping[int, Instruction]`): a partial map from
base opcode numbers to instructions. -/
def OpcodeTable := Int → Option Instruction

/-- `CPU.__getitem__`: look up `opcode % 100` in the table (`KeyError`
when absent) and bind the full opcode word. -/
def CPU.getItem (table : OpcodeTable) (opcode : Int) (pos : Int) :
    Except Err BoundInstruction :=
  match table (opcode.emod 100) with
  | none => .error .keyError
  | some instr => instr.bind opcode pos

/-- One iteration of the run loop body: `self.pos = self[mem[self.pos]]()`. -/
def step (table : OpcodeTable) (st : CPUState) : Except Err CPUState :=
  match pyGet st.memory st.pos with
  | none => .error .indexError
  | some opcode =>
      match CPU.getItem table opcode st.pos with
      | .error e => .error e
      | .ok b => b.call st

/-- Result of a fuelled run: `ok` is the state at which `Halt` was
raised (the sole successful termination), `err` is a fatal error
propagated to the caller with the state at the failing step, `timeout`
means the fuel ran out with the program still running. -/
inductive RunResult where
  | ok (st : CPUState)
  | err (e : Err) (st : CPUState)
  | timeout (st : CPUState)
deriving DecidableEq, Repr

/-- The `while True` loop of `CPU.execute`, fuelled: step until `Halt`
is caught (success) or another exception propagates (fatal). -/
def run (table : OpcodeTable) : Nat → CPUState → RunResult
  | 0, st => .timeout st
  | fuel + 1, st =>
      match step table st with
      | .ok st' => run table fuel st'
      | .error .halted => .ok st
      | .error e => .err e st

/-- The `CPU` object of the Day 5 notebook: the opcode table supplied at
construction, plus the `memory` and `pos` attributes left over from the
previous run (empty before any run). -/
structure CPU where
  opcodes : OpcodeTable
  memory : Memory := []
  pos : Int := 0

/-- `CPU.reset`: install a fresh copy of the supplied memory image and
set the position counter to 0. -/
def CPU.reset (cpu : CPU) (memory : Memory) : CPU :=
  { opcodes := cpu.opcodes, memory := memory, pos := 0 }

/-- `CPU.execute`: reset with the supplied image, then run the loop.
Returns the run result together with the CPU as it is left after the
run (its `memory` and `pos` attributes reflect the final state). -/
def CPU.execute (cpu : CPU) (fuel : Nat) (memory : Memory) (chan : Chan) :
    RunResult × CPU :=
  let c := cpu.reset memory
  let r := run c.opcodes fuel ⟨c.memory, c.pos, chan⟩
  match r with
  | .ok st => (r, { opcodes := c.opcodes, memory := st.memory, pos := st.pos })
  | .err _ st => (r, { opcodes := c.opcodes, memory := st.memory, pos := st.pos })
  | .timeout st => (r, { opcodes := c.opcodes, memory := st.memory, pos := st.pos })

/-- `operator.add` lifted to the callable embedding (exactly two
arguments, else `TypeError`). -/
def addF : List Int → Chan → Except Err (FRes × Chan)
  | [a, b], ch => .ok (.intR (a + b), ch)
  | _, _ => .error .typeError

/-- `operator.mul`. -/
def mulF : List Int → Chan → Except Err (FRes × Chan)
  | [a, b], ch => .ok (.intR (a * b), ch)
  | _, _ => .error .typeError

/-- `partial(input, "i> ")`: read the next integer from the input
channel (end of input raises, embedded as `TypeError`-free distinct
failure: we reuse `valueError` for a failed read of the stream). -/
def inputF : List Int → Chan → Except Err (FRes × Chan)
  | [], ch =>
      match ch.inputs with
      | [] => .error .valueError
      | v :: rest => .ok (.intR v, ⟨rest, ch.outputs⟩)
  | _, _ => .error .typeError

/-- `print` (and `outputs.append`): send the single argument to the
output sink, returning `None`. -/
def printF : List Int → Chan → Except Err (FRes × Chan)
  | [a], ch => .ok (.noneR, ⟨ch.inputs, ch.outputs ++ [a]⟩)
  | _, _ => .error .typeError

/-- `Halt.halt`: raise the halt signal. -/
def haltF : List Int → Chan → Except Err (FRes × Chan)
  | [], _ => .error .halted
  | _, _ => .error .typeError

/-- `bool` (the predicate of jump-if-true). -/
def boolF : List Int → Chan → Except Err (FRes × Chan)
  | [a], ch => .ok (.boolR (decide (a ≠ 0)), ch)
  | _, _ => .error .typeError

/-- `operator.not_` (the predicate of jump-if-false). -/
def notF : List Int → Chan → Except Err (FRes × Chan)
  | [a], ch => .ok (.boolR (decide (a = 0)), ch)
  | _, _ => .error .typeError

/-- `operator.lt`. -/
def ltF : List Int → Chan → Except Err (FRes × Chan)
  | [a, b], ch => .ok (.boolR (decide (a < b)), ch)
  | _, _ => .error .typeError

/-- `operator.eq`. -/
def eqF : List Int → Chan → Except Err (FRes × Chan)
  | [a, b], ch => .ok (.boolR (decide (a = b)), ch)
  | _, _ => .error .typeError

/-- `Instruction(operator.add, 2, True)`. -/
def addInstr : Instruction := { f := addF, arg_count := 2, output := true }

/-- `Instruction(operator.mul, 2, True)`. -/
def mulInstr : Instruction := { f := mulF, arg_count := 2, output := true }

/-- `Instruction(partial(input, "i> "), output=True)`. -/
def inputInstr : Instruction := { f := inputF, output := true }

/-- `Instruction(print, 1)`. -/
def printInstr : Instruction := { f := printF, arg_count := 1 }

/-- `Instruction(Halt.halt)`. -/
def haltInstr : Instruction := { f := haltF }

/-- `JumpInstruction(bool, 2)`. -/
def jumpIfTrue : Instruction := { f := boolF, arg_count := 2, isJump := true }

/-- `JumpInstruction(operator.not_, 2)`. -/
def jumpIfFalse : Instruction := { f := notF, arg_count := 2, isJump := true }

/-- `Instruction(operator.lt, 2, True)`. -/
def ltInstr : Instruction := { f := ltF, arg_count := 2, output := true }

/-- `Instruction(operator.eq, 2, True)`. -/
def eqInstr : Instruction := { f := eqF, arg_count := 2, output := true }

/-- The `base_opcodes` table of the Day 5 notebook. -/
def base_opcodes : OpcodeTable := fun k =>
  if k = 1 then some addInstr
  else if k = 2 then some mulInstr
  else if k = 3 then some inputInstr
  else if k = 4 then some printInstr
  else if k = 99 then some haltInstr
  else none

/-- The `jump_opcodes` table: `base_opcodes` extended with the jumps and
comparisons of part 2. -/
def jump_opcodes : OpcodeTable := fun k =>
  if k = 5 then some jumpIfTrue
  else if k = 6 then some jumpIfFalse
  else if k = 7 then some ltInstr
  else if k = 8 then some eqInstr
  else base_opcodes k

/-!
The simpler Day 2 machine: no parameter modes, a fixed class-level
opcode table, and `execute` taking optional noun/verb overrides for
addresses 1 and 2.
-/

/-- The Day 2 `Instruction` dataclass (the field name keeps the
source's spelling). -/
structure Instruction02 where
  f : List Int → Except Err Int
  paramater_count : Nat

/-- Day 2 `Instruction.__call__`: with parameters, split off the last
one as the output address, read each input parameter as a memory
address, apply `f` and store the result; with no parameters just call
`f` (only the halt signal does this). -/
def Instruction02.call (instr : Instruction02) (mem : Memory)
    (params : List Int) : Except Err Memory :=
  match params.getLast? with
  | none =>
      match instr.f [] with
      | .error e => .error e
      | .ok _ => .ok mem
  | some outAddr =>
      match (params.dropLast).mapM (pyGet mem) with
      | none => .error .indexError
      | some vals =>
          match instr.f vals with
          | .error e => .error e
          | .ok r =>
              match pySet mem outAddr r with
              | some m => .ok m
              | none => .error .indexError

/-- Day 2 `operator.add` (exactly two inputs, else `TypeError`). -/
def add02F : List Int → Except Err Int
  | [a, b] => .ok (a + b)
  | _ => .error .typeError

/-- Day 2 `operator.mul`. -/
def mul02F : List Int → Except Err Int
  | [a, b] => .ok (a * b)
  | _ => .error .typeError

/-- Day 2 `Halt.halt`. -/
def halt02F : List Int → Except Err Int
  | [] => .error .halted
  | _ => .error .typeError

/-- The fixed class-level opcode table of the Day 2 CPU. -/
def opcodes02 : Int → Option Instruction02 := fun k =>
  if k = 1 then some ⟨add02F, 3⟩
  else if k = 2 then some ⟨mul02F, 3⟩
  else if k = 99 then some ⟨halt02F, 0⟩
  else none

/-- The Day 2 CPU: memory and position attributes (empty before any
run). -/
structure CPU02 where
  memory : Memory := []
  pos : Nat := 0
deriving DecidableEq, Repr

/-- One iteration of the Day 2 run loop: fetch the opcode word (no
mode digits, the word itself is the table key), slice the parameter
words (Python slicing truncates at the end of the list), call the
instruction and advance the counter by `1 + paramater_count`. -/
def step02 (st : CPU02) : Except Err CPU02 :=
  match pyGet st.memory (st.pos : Int) with
  | none => .error .indexError
  | some opw =>
      match opcodes02 opw with
      | none => .error .keyError
      | some instr =>
          match instr.call st.memory
              ((st.memory.drop (st.pos + 1)).take instr.paramater_count) with
          | .error e => .error e
          | .ok mem' => .ok ⟨mem', st.pos + 1 + instr.paramater_count⟩

/-- Result of a Day 2 run: on `Halt` the engine returns `memory[0]`. -/
inductive Run02Result where
  | ok (v : Int)
  | err (e : Err)
  | timeout
deriving DecidableEq, Repr

/-- The fuelled Day 2 run loop; catching `Halt` returns `memory[0]`. -/
def run02 : Nat → CPU02 → Run02Result × CPU02
  | 0, st => (.timeout, st)
  | fuel + 1, st =>
      match step02 st with
      | .ok st' => run02 fuel st'
      | .error .halted =>
          match pyGet st.memory 0 with
          | some v => (.ok v, st)
          | none => (.err .indexError, st)
      | .error e => (.err e, st)

/-- Day 2 `CPU.reset`: fresh copy of the image, counter to 0,
discarding whatever the previous run left behind. -/
def CPU02.reset (_cpu : CPU02) (memory : Memory) : CPU02 := ⟨memory, 0⟩

/-- An optional override write (`if noun is not None: memory[1] = noun`). -/
def overrideAt (mem : Memory) (i : Int) : Option Int → Option Memory
  | none => some mem
  | some v => pySet mem i v

/-- Day 2 `CPU.execute`: reset with the supplied image, apply the noun
and verb overrides at addresses 1 and 2, then run. -/
def CPU02.execute (cpu : CPU02) (fuel : Nat) (memory : Memory)
    (noun verb : Option Int) : Run02Result × CPU02 :=
  let c := cpu.reset memory
  match overrideAt c.memory 1 noun with
  | none => (.err .indexError, c)
  | some m1 =>
      match overrideAt m1 2 verb with
      | none => (.err .indexError, ⟨m1, 0⟩)
      | some m2 => run02 fuel ⟨m2, 0⟩

/-!
Helper lemmas shared by the claim theorems.
-/

/-- An index outside `[-len, len)` resolves to `none`. -/
theorem pyIndex_out_of_range (len : Nat) (i : Int)
    (h : i < -(len : Int) ∨ (len : Int) ≤ i) : pyIndex len i = none := by
  unfold pyIndex
  have h1 : ¬ (0 ≤ (if i < 0 then i + (len : Int) else i) ∧
      (if i < 0 then i + (len : Int) else i) < (len : Int)) := by
    by_cases hneg : i < 0 <;> simp only [hneg, if_true, if_false] <;> omega
  simp only [h1, if_false]

/-- A read at an index outside `[-len, len)` is an `IndexError`. -/
theorem pyGet_out_of_range (mem : Memory) (i : Int)
    (h : i < -(mem.length : Int) ∨ (mem.length : Int) ≤ i) : pyGet mem i = none := by
  unfold pyGet
  rw [pyIndex_out_of_range _ _ h]

/-- A write at an index outside `[-len, len)` is an `IndexError`. -/
theorem pySet_out_of_range (mem : Memory) (i : Int) (v : Int)
    (h : i < -(mem.length : Int) ∨ (mem.length : Int) ≤ i) : pySet mem i v = none := by
  unfold pySet
  rw [pyIndex_out_of_range _ _ h]

/-- A step that raises anything other than `Halt` aborts the run with
that error; the loop performs no recovery. -/
theorem run_fatal (table : OpcodeTable) (fuel : Nat) (st : CPUState) (e : Err)
    (he : e ≠ Err.halted) (h : step table st = Except.error e) :
    run table (fuel + 1) st = RunResult.err e st := by
  unfold run
  rw [h]
  cases e
  · exact absurd rfl he
  all_goals rfl

/-- A run that ends in `ok` ends at a state whose next step raises
`Halt`: the halt instruction is the only successful exit. -/
theorem run_ok_step_halted (table : OpcodeTable) :
    ∀ (fuel : Nat) (st st' : CPUState), run table fuel st = RunResult.ok st' →
      step table st' = Except.error Err.halted := by
  intro fuel
  induction fuel with
  | zero =>
      intro st st' h
      exact absurd h (by unfold run; intro hh; cases hh)
  | succ n ih =>
      intro st st' h
      unfold run at h
      cases hstep : step table st with
      | ok st2 =>
          rw [hstep] at h
          exact ih st2 st' h
      | error e =>
          rw [hstep] at h
          cases e with
          | halted => cases h; exact hstep
          | keyError => cases h
          | indexError => cases h
          | valueError => cases h
          | typeError => cases h

/-- The decoded mode list of `modesFrom mo i count` has length `count`
and its `j`-th entry is the mode of digit `mo // 10 ** (i + j) % 10`. -/
theorem modesFrom_spec :
    ∀ (count i : Nat) (mo : Int) (ms : List ParameterMode),
      modesFrom mo i count = Except.ok ms →
      ms.length = count ∧
      ∀ (j : Nat) (m : ParameterMode), ms.get? j = some m →
        ParameterMode.ofDigit ((mo.ediv (10 ^ (i + j))).emod 10) = some m := by
  intro count
  induction count with
  | zero =>
      intro i mo ms h
      unfold modesFrom at h
      cases h
      exact ⟨rfl, by intro j m hj; cases hj⟩
  | succ n ih =>
      intro i mo ms h
      unfold modesFrom at h
      cases hd : ParameterMode.ofDigit ((mo.ediv (10 ^ i)).emod 10) with
      | none => rw [hd] at h; cases h
      | some m0 =>
          rw [hd] at h
          cases hrec : modesFrom mo (i + 1) n with
          | error e => rw [hrec] at h; cases h
          | ok tail =>
              rw [hrec] at h
              cases h
              obtain ⟨hlen, hspec⟩ := ih (i + 1) mo tail hrec
              refine ⟨by simp [hlen], ?_⟩
              intro j m hj
              cases j with
              | zero =>
                  simp only [List.get?] at hj
                  cases hj
                  exact hd
              | succ k =>
                  have hk := hspec k m (by simpa using hj)
                  have harith : i + 1 + k = i + (k + 1) := by omega
                  rw [harith] at hk
                  exact hk

/-- If any of the `count` decoded digits is not a known mode, the
decoding raises `ValueError`. -/
theorem modesFrom_bad :
    ∀ (count i : Nat) (mo : Int),
      (∃ j, j < count ∧
        ParameterMode.ofDigit ((mo.ediv (10 ^ (i + j))).emod 10) = none) →
      modesFrom mo i count = Except.error Err.valueError := by
  intro count
  induction count with
  | zero =>
      intro i mo ⟨j, hj, _⟩
      omega
  | succ n ih =>
      intro i mo ⟨j, hj, hbad⟩
      unfold modesFrom
      cases hd : ParameterMode.ofDigit ((mo.ediv (10 ^ i)).emod 10) with
      | none => rfl
      | some m0 =>
          cases j with
          | zero =>
              rw [Nat.add_zero] at hbad
              rw [hbad] at hd
              cases hd
          | succ k =>
              rw [ih (i + 1) mo ⟨k, by omega, by
                have harith : i + 1 + k = i + (k + 1) := by omega
                rw [harith]
                exact hbad⟩]

/-- Claim C1: running the execution engine on the initial memory image
`[1,9,10,3,2,3,11,0,99,30,40,50]` with no overrides terminates via the
halt instruction (the `RunResult.ok` alternative, produced only when a
step raises the halt signal) and leaves memory address 0 equal to 3500;
this holds for the Day 5 engine with `base_opcodes` and for the Day 2
engine alike. -/
theorem claim_C1_test_program_halts_with_3500 :
    (CPU.execute ⟨base_opcodes, [], 0⟩ 12 [1, 9, 10, 3, 2, 3, 11, 0, 99, 30, 40, 50] ⟨[], []⟩).1
      = RunResult.ok ⟨[3500, 9, 10, 70, 2, 3, 11, 0, 99, 30, 40, 50], 8, ⟨[], []⟩⟩ ∧
    pyGet [3500, 9, 10, 70, 2, 3, 11, 0, 99, 30, 40, 50] 0 = some 3500 ∧
    (CPU02.execute ⟨[], 0⟩ 12 [1, 9, 10, 3, 2, 3, 11, 0, 99, 30, 40, 50] none none).1
      = Run02Result.ok 3500 := by
  refine ⟨?_, ?_, ?_⟩ <;> rfl

/-- Claim C2: for every operand of every executed instruction, the
parameter resolver yields the literal word in immediate mode and the
memory value at the index given by the word in position mode; and every
instruction with the output flag writes its result to the address taken
literally from the trailing output parameter word (no addressing mode
is applied to it). -/
theorem claim_C2_parameter_resolution_and_write_target :
    (∀ (mem : Memory) (offset : Int) (modes : List ParameterMode) (args : List Int),
        resolveArgs mem offset modes = Except.ok args →
        args.length = modes.length ∧
        ∀ (i : Nat) (m : ParameterMode), modes.get? i = some m →
          ∃ w, pyGet mem (offset + (i : Int)) = some w ∧
            (m = ParameterMode.immediate → args.get? i = some w) ∧
            (m = ParameterMode.position → ∃ v, pyGet mem w = some v ∧ args.get? i = some v)) ∧
    (∀ (b : BoundInstruction) (st st' : CPUState),
        b.instruction.output = true →
        b.call st = Except.ok st' →
        ∃ target v,
          pyGet st.memory (b.offset + (b.instruction.arg_count : Int)) = some target ∧
          pySet st.memory target v = some st'.memory) := by
  constructor
  · intro mem offset modes
    induction modes generalizing offset with
    | nil =>
        intro args h
        cases h
        exact ⟨rfl, by intro i m hm; cases hm⟩
    | cons m rest ih =>
        intro args h
        unfold resolveArgs at h
        cases hw : pyGet mem offset with
        | none => rw [hw] at h; cases h
        | some w =>
            simp only [hw] at h
            cases hv : m.get mem w with
            | none => rw [hv] at h; cases h
            | some v =>
                simp only [hv] at h
                cases hrec : resolveArgs mem (offset + 1) rest with
                | error e => rw [hrec] at h; cases h
                | ok vs =>
                    simp only [hrec] at h
                    cases h
                    obtain ⟨hlen, hspec⟩ := ih (offset + 1) vs hrec
                    refine ⟨by simp [hlen], ?_⟩
                    intro i mm hm
                    cases i with
                    | zero =>
                        simp only [List.get?] at hm
                        cases hm
                        refine ⟨w, by simpa using hw, ?_, ?_⟩
                        · intro him
                          rw [him] at hv
                          simp only [ParameterMode.get] at hv
                          cases hv
                          rfl
                        · intro hpos
                          rw [hpos] at hv
                          simp only [ParameterMode.get] at hv
                          exact ⟨v, hv, rfl⟩
                    | succ k =>
                        obtain ⟨w', hw', himm, hpos⟩ := hspec k mm (by simpa using hm)
                        refine ⟨w', ?_, ?_, ?_⟩
                        · have harith : offset + ((k : Int) + 1) = offset + 1 + (k : Int) := by ring
                          rw [Nat.cast_succ, harith]
                          exact hw'
                        · intro him
                          simpa using himm him
                        · intro hp
                          obtain ⟨v', hv', hargs'⟩ := hpos hp
                          exact ⟨v', hv', by simpa using hargs'⟩
  · intro b st st' hout h
    unfold BoundInstruction.call at h
    cases hargs : resolveArgs st.memory b.offset b.modes with
    | error e => rw [hargs] at h; cases h
    | ok args =>
        simp only [hargs] at h
        cases hcall : b.instruction.call st.pos args st.chan with
        | error e => rw [hcall] at h; cases h
        | ok trip =>
            obtain ⟨newpos, result, ch'⟩ := trip
            simp only [hcall] at h
            simp only [hout, eq_self_iff_true, if_true] at h
            cases htarget : pyGet st.memory (b.offset + (b.instruction.arg_count : Int)) with
            | none => rw [htarget] at h; cases h
            | some target =>
                simp only [htarget] at h
                cases hti : result.toInt with
                | none => rw [hti] at h; cases h
                | some v =>
                    simp only [hti] at h
                    cases hset : pySet st.memory target v with
                    | none => rw [hset] at h; cases h
                    | some mem' =>
                        simp only [hset] at h
                        cases h
                        exact ⟨target, v, rfl, hset⟩

/-- Witness for claim C2 at a concrete input: the program `[1, 0]` with
modes `[immediate, position]` starting at offset 0 resolves its second
operand (position mode, word 0) to the memory value at index 0; and the
concrete add instruction bound over `[1, 0, 0, 0, 99]` writes through
the literal word at `offset + arg_count`. -/
theorem claim_C2_witness :
    (∃ w, pyGet [(1 : Int), 0] (0 + ((1 : Nat) : Int)) = some w ∧
      (ParameterMode.position = ParameterMode.immediate →
        ([1, 1] : List Int).get? 1 = some w) ∧
      (ParameterMode.position = ParameterMode.position →
        ∃ v, pyGet [(1 : Int), 0] w = some v ∧ ([1, 1] : List Int).get? 1 = some v)) ∧
    (∃ target v,
      pyGet [(1 : Int), 0, 0, 0, 99] ((1 : Int) + ((2 : Nat) : Int)) = some target ∧
      pySet [(1 : Int), 0, 0, 0, 99] target v = some [2, 0, 0, 0, 99]) :=
  ⟨(claim_C2_parameter_resolution_and_write_target.1 [1, 0] 0
      [ParameterMode.immediate, ParameterMode.position] [1, 1] (by rfl)).2
      1 ParameterMode.position (by rfl),
   claim_C2_parameter_resolution_and_write_target.2
      ⟨addInstr, [ParameterMode.position, ParameterMode.position], 1⟩
      ⟨[1, 0, 0, 0, 99], 0, ⟨[], []⟩⟩ ⟨[2, 0, 0, 0, 99], 4, ⟨[], []⟩⟩ rfl (by rfl)⟩

/-- Claim C3: the table lookup key for a fetched opcode word `w` is
`w mod 100` (`KeyError` when absent, otherwise the bound form of the
instruction found there), and the addressing mode of operand `i` is the
decimal digit `(w div 100) div 10^i mod 10`, where digit 0 is position
mode and digit 1 is immediate mode. -/
theorem claim_C3_opcode_and_mode_decoding :
    (∀ (table : OpcodeTable) (w pos : Int), table (w.emod 100) = none →
        CPU.getItem table w pos = Except.error Err.keyError) ∧
    (∀ (table : OpcodeTable) (w pos : Int) (instr : Instruction),
        table (w.emod 100) = some instr →
        CPU.getItem table w pos = instr.bind w pos) ∧
    (∀ (instr : Instruction) (w pos : Int) (b : BoundInstruction),
        instr.bind w pos = Except.ok b →
        b.modes.length = instr.arg_count ∧
        ∀ (i : Nat) (m : ParameterMode), b.modes.get? i = some m →
          ParameterMode.ofDigit (((w.ediv 100).ediv (10 ^ i)).emod 10) = some m) ∧
    ParameterMode.ofDigit 0 = some ParameterMode.position ∧
    ParameterMode.ofDigit 1 = some ParameterMode.immediate := by
  refine ⟨?_, ?_, ?_, rfl, rfl⟩
  · intro table w pos h
    unfold CPU.getItem
    rw [h]
  · intro table w pos instr h
    unfold CPU.getItem
    rw [h]
  · intro instr w pos b h
    unfold Instruction.bind at h
    cases hm : modesFrom (w.ediv 100) 0 instr.arg_count with
    | error e => rw [hm] at h; cases h
    | ok ms =>
        rw [hm] at h
        cases h
        obtain ⟨hlen, hspec⟩ := modesFrom_spec instr.arg_count 0 (w.ediv 100) ms hm
        refine ⟨hlen, ?_⟩
        intro i m hi
        have := hspec i m hi
        rwa [Nat.zero_add] at this

/-- Witness for claim C3 at a concrete input: opcode word 1002 binds
the multiply instruction (1002 mod 100 = 2) with modes decoded from the
digits of 10 — digit 0 is 0 (position), digit 1 is 1 (immediate). -/
theorem claim_C3_witness :
    (CPU.getItem base_opcodes 1002 0 = Instruction.bind mulInstr 1002 0) ∧
    (ParameterMode.ofDigit ((((1002 : Int).ediv 100).ediv (10 ^ 1)).emod 10)
      = some ParameterMode.immediate) :=
  ⟨claim_C3_opcode_and_mode_decoding.2.1 base_opcodes 1002 0 mulInstr rfl,
   (claim_C3_opcode_and_mode_decoding.2.2.1 mulInstr 1002 0
      ⟨mulInstr, [ParameterMode.position, ParameterMode.immediate], 1⟩ rfl).2
      1 ParameterMode.immediate rfl⟩

/-- Claim C4: a zero condition never makes jump-if-true (opcode 5)
redirect the counter and a nonzero condition never makes jump-if-false
(opcode 6) redirect it — in both cases the next counter is the previous
one plus the width 3 (1 opcode word + 2 operands + no output); and
every non-jump instruction advances the counter by exactly
1 + arity + (1 if it writes an output). -/
theorem claim_C4_jump_predicates_and_sequential_advance :
    (jump_opcodes 5 = some jumpIfTrue) ∧
    (jump_opcodes 6 = some jumpIfFalse) ∧
    (∀ (pos target : Int) (ch : Chan),
        Instruction.call jumpIfTrue pos [0, target] ch
          = Except.ok (pos + 3, FRes.boolR false, ch)) ∧
    (∀ (pos cond target : Int) (ch : Chan), cond ≠ 0 →
        Instruction.call jumpIfFalse pos [cond, target] ch
          = Except.ok (pos + 3, FRes.boolR false, ch)) ∧
    (∀ (instr : Instruction) (pos : Int) (args : List Int) (ch : Chan)
        (np : Int) (r : FRes) (ch' : Chan),
        instr.isJump = false →
        instr.call pos args ch = Except.ok (np, r, ch') →
        np = pos + 1 + (instr.arg_count : Int) + (if instr.output then 1 else 0)) := by
  refine ⟨rfl, rfl, ?_, ?_, ?_⟩
  · intro pos target ch
    have h0 : Instruction.call jumpIfTrue pos [0, target] ch
        = Except.ok (pos + 1 + ((2 : Int) + 0), FRes.boolR false, ch) := rfl
    rw [h0]
    have h1 : pos + 1 + ((2 : Int) + 0) = pos + 3 := by ring
    rw [h1]
  · intro pos cond target ch hc
    have h0 : Instruction.call jumpIfFalse pos [cond, target] ch
        = Except.ok (if decide (cond = 0) then target else pos + 1 + ((2 : Int) + 0),
            FRes.boolR (decide (cond = 0)), ch) := rfl
    rw [h0, decide_eq_false hc]
    simp only [Bool.false_eq_true, if_false]
    have h1 : pos + 1 + ((2 : Int) + 0) = pos + 3 := by ring
    rw [h1]
  · intro instr pos args ch np r ch' hjump h
    unfold Instruction.call at h
    rw [hjump] at h
    simp only [Bool.false_eq_true, if_false] at h
    unfold Instruction.callBase at h
    cases hf : instr.f args ch with
    | error e => rw [hf] at h; cases h
    | ok out =>
        obtain ⟨res, ch2⟩ := out
        simp only [hf] at h
        cases h
        ring

/-- Witness for claim C4 at concrete inputs: jump-if-false with the
nonzero condition 5 advances sequentially from counter 0 to 3, and the
add instruction advances from 10 to 14 (1 + 2 operands + 1 output). -/
theorem claim_C4_witness :
    (Instruction.call jumpIfFalse 0 [5, 9] ⟨[], []⟩
      = Except.ok (0 + 3, FRes.boolR false, ⟨[], []⟩)) ∧
    ((14 : Int) = 10 + 1 + ((addInstr.arg_count : Nat) : Int)
      + (if addInstr.output then 1 else 0)) :=
  ⟨claim_C4_jump_predicates_and_sequential_advance.2.2.2.1 0 5 9 ⟨[], []⟩ (by decide),
   claim_C4_jump_predicates_and_sequential_advance.2.2.2.2 addInstr 10 [1, 2] ⟨[], []⟩
      14 (FRes.intR 3) ⟨[], []⟩ rfl rfl⟩

/-- An output instruction whose operation always produces a `bool`
writes `int(result)`, which is 0 or 1, through the literal target word. -/
theorem boundCall_writes_01 (instr : Instruction)
    (hjump : instr.isJump = false) (hout : instr.output = true)
    (hf : ∀ args ch out, instr.f args ch = Except.ok out →
      ∃ bb ch2, out = (FRes.boolR bb, ch2)) :
    ∀ (modes : List ParameterMode) (offset : Int) (st st' : CPUState),
      BoundInstruction.call ⟨instr, modes, offset⟩ st = Except.ok st' →
      ∃ target v, pyGet st.memory (offset + (instr.arg_count : Int)) = some target ∧
        pySet st.memory target v = some st'.memory ∧ (v = 0 ∨ v = 1) := by
  intro modes offset st st' h
  unfold BoundInstruction.call at h
  dsimp only at h
  cases hargs : resolveArgs st.memory offset modes with
  | error e => rw [hargs] at h; cases h
  | ok args =>
      simp only [hargs] at h
      have hcb : instr.call st.pos args st.chan = instr.callBase st.pos args st.chan := by
        unfold Instruction.call
        rw [hjump]
        simp
      rw [hcb] at h
      unfold Instruction.callBase at h
      cases hfa : instr.f args st.chan with
      | error e => rw [hfa] at h; cases h
      | ok out =>
          obtain ⟨bb, ch2, rfl⟩ := hf args st.chan out hfa
          simp only [hfa] at h
          simp only [hout, eq_self_iff_true, if_true] at h
          cases htarget : pyGet st.memory (offset + (instr.arg_count : Int)) with
          | none => rw [htarget] at h; cases h
          | some target =>
              simp only [htarget] at h
              simp only [FRes.toInt] at h
              cases hset : pySet st.memory target (if bb then 1 else 0) with
              | none => rw [hset] at h; cases h
              | some mem' =>
                  simp only [hset] at h
                  cases h
                  exact ⟨target, if bb then 1 else 0, rfl, hset, by cases bb <;> simp⟩

/-- Claim C5: for all integer operand values (negative, zero or
positive, via any addressing modes over any memory), the less-than
instruction (opcode 7) and the equals instruction (opcode 8) write
exactly 0 or exactly 1 to the output address, never any other value. -/
theorem claim_C5_comparisons_write_bool_as_int :
    (jump_opcodes 7 = some ltInstr) ∧
    (jump_opcodes 8 = some eqInstr) ∧
    ∀ (instr : Instruction), (instr = ltInstr ∨ instr = eqInstr) →
    ∀ (modes : List ParameterMode) (offset : Int) (st st' : CPUState),
      BoundInstruction.call ⟨instr, modes, offset⟩ st = Except.ok st' →
      ∃ target v, pyGet st.memory (offset + (instr.arg_count : Int)) = some target ∧
        pySet st.memory target v = some st'.memory ∧ (v = 0 ∨ v = 1) := by
  refine ⟨rfl, rfl, ?_⟩
  intro instr hinstr
  rcases hinstr with rfl | rfl
  · refine boundCall_writes_01 ltInstr rfl rfl ?_
    intro args ch out h
    match args with
    | [] => cases h
    | [a] => cases h
    | [a, b] => cases h; exact ⟨decide (a < b), ch, rfl⟩
    | a :: b :: c :: rest => cases h
  · refine boundCall_writes_01 eqInstr rfl rfl ?_
    intro args ch out h
    match args with
    | [] => cases h
    | [a] => cases h
    | [a, b] => cases h; exact ⟨decide (a = b), ch, rfl⟩
    | a :: b :: c :: rest => cases h

/-- Witness for claim C5 at a concrete input: the less-than instruction
over memory `[7, -3, -3, 0]` (operands -3 < -3 false) writes 0 to
address 0. -/
theorem claim_C5_witness :
    ∃ target v,
      pyGet [(7 : Int), -3, -3, 0] ((1 : Int) + ((2 : Nat) : Int)) = some target ∧
      pySet [(7 : Int), -3, -3, 0] target v = some [0, -3, -3, 0] ∧ (v = 0 ∨ v = 1) :=
  claim_C5_comparisons_write_bool_as_int.2.2 ltInstr (Or.inl rfl)
    [ParameterMode.immediate, ParameterMode.immediate] 1
    ⟨[7, -3, -3, 0], 0, ⟨[], []⟩⟩ ⟨[0, -3, -3, 0], 4, ⟨[], []⟩⟩ (by rfl)

/-- Claim C6: an opcode word whose base opcode (`w mod 100`) has no
table entry makes the step raise `KeyError`, which the run loop
propagates to the caller unrecovered; `KeyError` is distinct from the
halt signal, and a run returns successfully (`RunResult.ok`) only at a
state whose next step raises the halt signal — halt is the sole
successful termination path. -/
theorem claim_C6_unknown_opcode_fatal_halt_sole_success :
    (∀ (table : OpcodeTable) (st : CPUState) (w : Int),
        pyGet st.memory st.pos = some w → table (w.emod 100) = none →
        step table st = Except.error Err.keyError) ∧
    (∀ (table : OpcodeTable) (fuel : Nat) (st : CPUState),
        step table st = Except.error Err.keyError →
        run table (fuel + 1) st = RunResult.err Err.keyError st) ∧
    (Err.keyError ≠ Err.halted) ∧
    (∀ (table : OpcodeTable) (fuel : Nat) (st st' : CPUState),
        run table fuel st = RunResult.ok st' →
        step table st' = Except.error Err.halted) := by
  refine ⟨?_, ?_, ?_, ?_⟩
  · intro table st w hw htable
    unfold step
    simp only [hw]
    unfold CPU.getItem
    simp only [htable]
  · intro table fuel st h
    exact run_fatal table fuel st Err.keyError (by intro hh; cases hh) h
  · intro h
    cases h
  · intro table fuel st st' h
    exact run_ok_step_halted table fuel st st' h

/-- Witness for claim C6 at a concrete input: opcode word 55 has no
entry in `base_opcodes`, so the step raises `KeyError` and the run
aborts with it; and the halted test run of C1's program ends at counter
8 where the next step raises the halt signal. -/
theorem claim_C6_witness :
    (step base_opcodes ⟨[55], 0, ⟨[], []⟩⟩ = Except.error Err.keyError) ∧
    (run base_opcodes 4 ⟨[55], 0, ⟨[], []⟩⟩
      = RunResult.err Err.keyError ⟨[55], 0, ⟨[], []⟩⟩) ∧
    (step base_opcodes ⟨[3500, 9, 10, 70, 2, 3, 11, 0, 99, 30, 40, 50], 8, ⟨[], []⟩⟩
      = Except.error Err.halted) :=
  ⟨claim_C6_unknown_opcode_fatal_halt_sole_success.1 base_opcodes
      ⟨[55], 0, ⟨[], []⟩⟩ 55 rfl rfl,
   claim_C6_unknown_opcode_fatal_halt_sole_success.2.1 base_opcodes 3
      ⟨[55], 0, ⟨[], []⟩⟩
      (claim_C6_unknown_opcode_fatal_halt_sole_success.1 base_opcodes
        ⟨[55], 0, ⟨[], []⟩⟩ 55 rfl rfl),
   claim_C6_unknown_opcode_fatal_halt_sole_success.2.2.2 base_opcodes 12
      ⟨[1, 9, 10, 3, 2, 3, 11, 0, 99, 30, 40, 50], 0, ⟨[], []⟩⟩
      ⟨[3500, 9, 10, 70, 2, 3, 11, 0, 99, 30, 40, 50], 8, ⟨[], []⟩⟩ (by rfl)⟩

/-- Counterexample to claim C7 as stated: the index -1 lies outside
`[0, length)` yet a position-mode read there is not an error — Python
list indexing resolves it to the last element.  The program
`[1, -1, -1, 0, 99]` makes two position-mode reads at index -1, runs to
a clean halt and leaves memory `[198, -1, -1, 0, 99]`. -/
theorem claim_C7_counterexample :
    pyGet [1, -1, -1, 0, 99] (-1) = some 99 ∧
    resolveArgs [1, -1, -1, 0, 99] 1 [ParameterMode.position, ParameterMode.position]
      = Except.ok [99, 99] ∧
    (CPU.execute ⟨base_opcodes, [], 0⟩ 10 [1, -1, -1, 0, 99] ⟨[], []⟩).1
      = RunResult.ok ⟨[198, -1, -1, 0, 99], 4, ⟨[], []⟩⟩ :=
  ⟨rfl, rfl, rfl⟩

/-- Claim C7 as amended: a memory access (read, write, operand
resolution or opcode fetch) whose index lies outside `[-length,
length)` is a fatal `IndexError` that the run loop never recovers from;
indices in `[-length, 0)` are resolved relative to the end of memory
(Python list semantics) rather than being errors. -/
theorem claim_C7_amended_out_of_bounds_fatal :
    (∀ (mem : Memory) (i : Int),
        (i < -(mem.length : Int) ∨ (mem.length : Int) ≤ i) →
        pyGet mem i = none ∧ ∀ v, pySet mem i v = none) ∧
    (∀ (table : OpcodeTable) (st : CPUState),
        pyGet st.memory st.pos = none → step table st = Except.error Err.indexError) ∧
    (∀ (mem : Memory) (i : Int) (m : ParameterMode) (rest : List ParameterMode),
        pyGet mem i = none →
        resolveArgs mem i (m :: rest) = Except.error Err.indexError) ∧
    (∀ (mem : Memory) (i w : Int) (rest : List ParameterMode),
        pyGet mem i = some w → pyGet mem w = none →
        resolveArgs mem i (ParameterMode.position :: rest) = Except.error Err.indexError) ∧
    (∀ (table : OpcodeTable) (fuel : Nat) (st : CPUState) (e : Err),
        e ≠ Err.halted → step table st = Except.error e →
        run table (fuel + 1) st = RunResult.err e st) := by
  refine ⟨?_, ?_, ?_, ?_, ?_⟩
  · intro mem i h
    exact ⟨pyGet_out_of_range mem i h, fun v => pySet_out_of_range mem i v h⟩
  · intro table st h
    unfold step
    simp only [h]
  · intro mem i m rest h
    unfold resolveArgs
    simp only [h]
  · intro mem i w rest h1 h2
    unfold resolveArgs
    simp only [h1, ParameterMode.get, h2]
  · intro table fuel st e he h
    exact run_fatal table fuel st e he h

/-- Witness for the amended claim C7 at concrete inputs: index 7 is out
of range for the two-element memory `[5, 6]` for both reads and writes,
and running on empty memory aborts immediately with the unrecovered
`IndexError` from the opcode fetch. -/
theorem claim_C7_amended_witness :
    (pyGet [(5 : Int), 6] 7 = none ∧ ∀ v, pySet [(5 : Int), 6] 7 v = none) ∧
    run base_opcodes 4 ⟨[], 0, ⟨[], []⟩⟩
      = RunResult.err Err.indexError ⟨[], 0, ⟨[], []⟩⟩ :=
  ⟨claim_C7_amended_out_of_bounds_fatal.1 [5, 6] 7 (by decide),
   claim_C7_amended_out_of_bounds_fatal.2.2.2.2 base_opcodes 3
     ⟨[], 0, ⟨[], []⟩⟩ Err.indexError (by intro hh; cases hh)
     (claim_C7_amended_out_of_bounds_fatal.2.1 base_opcodes ⟨[], 0, ⟨[], []⟩⟩ rfl)⟩

/-- Claim C8: any decoded addressing-mode digit other than 0 (position)
or 1 (immediate) raises `ValueError`: the digit has no mode, binding an
instruction whose opcode word carries such a digit fails, and the step
that fetched the word stops with that fatal error. -/
theorem claim_C8_malformed_mode_digit_fatal :
    (∀ (d : Int), d ≠ 0 → d ≠ 1 → ParameterMode.ofDigit d = none) ∧
    (∀ (instr : Instruction) (w pos : Int),
        (∃ j, j < instr.arg_count ∧
          ParameterMode.ofDigit (((w.ediv 100).ediv (10 ^ j)).emod 10) = none) →
        Instruction.bind instr w pos = Except.error Err.valueError) ∧
    (∀ (table : OpcodeTable) (st : CPUState) (w : Int) (instr : Instruction),
        pyGet st.memory st.pos = some w →
        table (w.emod 100) = some instr →
        Instruction.bind instr w st.pos = Except.error Err.valueError →
        step table st = Except.error Err.valueError) := by
  refine ⟨?_, ?_, ?_⟩
  · intro d h0 h1
    unfold ParameterMode.ofDigit
    simp [h0, h1]
  · intro instr w pos ⟨j, hj, hbad⟩
    unfold Instruction.bind
    rw [modesFrom_bad instr.arg_count 0 (w.ediv 100) ⟨j, hj, by rwa [Nat.zero_add]⟩]
  · intro table st w instr hw htable hbind
    unfold step
    simp only [hw]
    unfold CPU.getItem
    simp only [htable, hbind]

/-- Witness for claim C8 at concrete inputs: digit 7 names no mode;
opcode word 202 (mode digit 2 for the first operand) fails to bind the
multiply instruction, and the step fetching it stops with `ValueError`. -/
theorem claim_C8_witness :
    (ParameterMode.ofDigit 7 = none) ∧
    (Instruction.bind mulInstr 202 0 = Except.error Err.valueError) ∧
    (step base_opcodes ⟨[202, 0, 0, 0], 0, ⟨[], []⟩⟩ = Except.error Err.valueError) :=
  ⟨claim_C8_malformed_mode_digit_fatal.1 7 (by decide) (by decide),
   claim_C8_malformed_mode_digit_fatal.2.1 mulInstr 202 0 ⟨0, by decide, rfl⟩,
   claim_C8_malformed_mode_digit_fatal.2.2 base_opcodes
     ⟨[202, 0, 0, 0], 0, ⟨[], []⟩⟩ 202 mulInstr rfl rfl
     (claim_C8_malformed_mode_digit_fatal.2.1 mulInstr 202 0 ⟨0, by decide, rfl⟩)⟩

/-- Claim C9: each call to `execute` reinitializes memory from a fresh
copy of the supplied image and resets the counter to 0, so the outcome
never depends on the memory or counter left over from a previous run —
for the Day 5 engine and for the Day 2 engine with noun/verb overrides
alike. -/
theorem claim_C9_runs_are_isolated :
    (∀ (table : OpcodeTable) (m1 m2 : Memory) (p1 p2 : Int) (fuel : Nat)
        (mem : Memory) (ch : Chan),
        (CPU.execute ⟨table, m1, p1⟩ fuel mem ch).1
          = (CPU.execute ⟨table, m2, p2⟩ fuel mem ch).1) ∧
    (∀ (cpu : CPU) (mem : Memory),
        (CPU.reset cpu mem).pos = 0 ∧ (CPU.reset cpu mem).memory = mem) ∧
    (∀ (m1 m2 : Memory) (p1 p2 : Nat) (fuel : Nat) (mem : Memory)
        (noun verb : Option Int),
        (CPU02.execute ⟨m1, p1⟩ fuel mem noun verb).1
          = (CPU02.execute ⟨m2, p2⟩ fuel mem noun verb).1) := by
  refine ⟨?_, ?_, ?_⟩
  · intro table m1 m2 p1 p2 fuel mem ch
    rfl
  · intro cpu mem
    exact ⟨rfl, rfl⟩
  · intro m1 m2 p1 p2 fuel mem noun verb
    rfl

/-- A bound call of an instruction without the output flag skips the
write branch entirely: memory is unchanged, and the new channel is
whatever the instruction call produced. -/
theorem boundCall_nonoutput_state (b : BoundInstruction) (st st' : CPUState)
    (hout : b.instruction.output = false) (h : b.call st = Except.ok st') :
    st'.memory = st.memory ∧
    ∃ args np r, resolveArgs st.memory b.offset b.modes = Except.ok args ∧
      b.instruction.call st.pos args st.chan = Except.ok (np, r, st'.chan) := by
  unfold BoundInstruction.call at h
  cases hargs : resolveArgs st.memory b.offset b.modes with
  | error e => rw [hargs] at h; cases h
  | ok args =>
      simp only [hargs] at h
      cases hcall : b.instruction.call st.pos args st.chan with
      | error e => rw [hcall] at h; cases h
      | ok trip =>
          obtain ⟨np, r, ch'⟩ := trip
          simp only [hcall] at h
          simp only [hout, Bool.false_eq_true, if_false] at h
          cases h
          exact ⟨rfl, args, np, r, rfl, hcall⟩

/-- An instruction whose operation never touches the channel produces
the channel it was given, through both the plain and the jump call
paths. -/
theorem instrCall_preserves_chan (instr : Instruction)
    (hf : ∀ args ch out, instr.f args ch = Except.ok out → out.2 = ch) :
    ∀ (pos : Int) (args : List Int) (ch : Chan) (np : Int) (r : FRes) (ch' : Chan),
      instr.call pos args ch = Except.ok (np, r, ch') → ch' = ch := by
  intro pos args ch np r ch' h
  unfold Instruction.call at h
  split at h
  · cases hgl : args.getLast? with
    | none => rw [hgl] at h; cases h
    | some jt =>
        simp only [hgl] at h
        unfold Instruction.callBase at h
        cases hf2 : instr.f args.dropLast ch with
        | error e => rw [hf2] at h; cases h
        | ok out =>
            have hch := hf _ _ _ hf2
            obtain ⟨r2, ch2⟩ := out
            simp only [hf2] at h
            cases h
            exact hch
  · unfold Instruction.callBase at h
    cases hf2 : instr.f args ch with
    | error e => rw [hf2] at h; cases h
    | ok out =>
        have hch := hf _ _ _ hf2
        obtain ⟨r2, ch2⟩ := out
        simp only [hf2] at h
        cases h
        exact hch

/-- Claim C10: jump instructions (opcodes 5 and 6) are defined without
the output flag, so the write branch of the bound-instruction body is
skipped: executing a jump never modifies memory, and (their predicates
not touching the channel either) the only engine state a jump changes
is the program counter. -/
theorem claim_C10_jumps_leave_memory_unchanged :
    (jump_opcodes 5 = some jumpIfTrue ∧ jumpIfTrue.output = false ∧
     jump_opcodes 6 = some jumpIfFalse ∧ jumpIfFalse.output = false) ∧
    (∀ (b : BoundInstruction) (st st' : CPUState),
        b.instruction.output = false →
        b.call st = Except.ok st' → st'.memory = st.memory) ∧
    (∀ (instr : Instruction), (instr = jumpIfTrue ∨ instr = jumpIfFalse) →
      ∀ (modes : List ParameterMode) (offset : Int) (st st' : CPUState),
        BoundInstruction.call ⟨instr, modes, offset⟩ st = Except.ok st' →
        st'.memory = st.memory ∧ st'.chan = st.chan) := by
  refine ⟨⟨rfl, rfl, rfl, rfl⟩, ?_, ?_⟩
  · intro b st st' hout h
    exact (boundCall_nonoutput_state b st st' hout h).1
  · intro instr hinstr modes offset st st' h
    have hout : instr.output = false := by rcases hinstr with rfl | rfl <;> rfl
    obtain ⟨hmem, args, np, r, hargs, hcall⟩ :=
      boundCall_nonoutput_state ⟨instr, modes, offset⟩ st st' hout h
    refine ⟨hmem, ?_⟩
    rcases hinstr with rfl | rfl
    · refine instrCall_preserves_chan jumpIfTrue ?_ st.pos args st.chan np r st'.chan hcall
      intro args2 ch out hb
      match args2 with
      | [] => cases hb
      | [a] => cases hb; rfl
      | a :: b2 :: rest => cases hb
    · refine instrCall_preserves_chan jumpIfFalse ?_ st.pos args st.chan np r st'.chan hcall
      intro args2 ch out hb
      match args2 with
      | [] => cases hb
      | [a] => cases hb; rfl
      | a :: b2 :: rest => cases hb

/-- Witness for claim C10 at a concrete input: the jump-if-true
instruction, its condition 1 taken against target 0 over the memory
`[1105, 1, 0]`, leaves both memory and channel untouched. -/
theorem claim_C10_witness :
    (⟨[1105, 1, 0], 0, Chan.mk [] []⟩ : CPUState).memory
        = (⟨[1105, 1, 0], 0, Chan.mk [] []⟩ : CPUState).memory ∧
      (⟨[1105, 1, 0], 0, Chan.mk [] []⟩ : CPUState).chan
        = (⟨[1105, 1, 0], 0, Chan.mk [] []⟩ : CPUState).chan :=
  claim_C10_jumps_leave_memory_unchanged.2.2 jumpIfTrue (Or.inl rfl)
    [ParameterMode.immediate, ParameterMode.immediate] 1
    ⟨[1105, 1, 0], 0, ⟨[], []⟩⟩ ⟨[1105, 1, 0], 0, ⟨[], []⟩⟩ (by rfl)

end Intcode
